import Mathlib

/-!
A verification development for the PharmaInsight Pro analytics and
forecasting engine (`backend/app/services/data_service.py` and
`backend/app/routers/forecasting.py` / `intelligence.py`).

Modelling conventions:
* floating point numbers are modelled as exact rationals (`Rat`);
  `Rat` division by zero yields `0`, which is only relied upon where the
  source guards the denominator itself;
* a pandas `DataFrame` of processed transactions is a `Frame`: a list of
  `Row`s plus a flag recording whether the optional `invoice_id` column
  exists (all other schema columns are always materialised by
  `process_data`);
* calendar dates are day indices (`Nat`), and month periods are absolute
  month indices (`Nat`, `year * 12 + (month - 1)`); `month_year` period
  keys are the literal `"YYYY-MM"` strings;
* pandas `groupby` enumerates the distinct keys in ascending order; this
  is `sortedKeys`;
* pandas `DataFrame.agg` with a dict raises a `KeyError` when one of the
  dict's column names does not exist in the frame; operations that can
  raise this way return `Except String`.
-/

namespace PharmaInsight

attribute [local semireducible] Rat.add Rat.mul Rat.inv Rat.sub

/-- Lexicographic code-point comparison of character lists: the order
pandas uses on string group keys. -/
def charListLe : List Char → List Char → Bool
  | [], _ => true
  | _ :: _, [] => false
  | a :: as, b :: bs =>
    if a.toNat < b.toNat then true
    else if b.toNat < a.toNat then false
    else charListLe as bs

/-- Lexicographic string comparison (pandas sort order on object keys). -/
def strLe (a b : String) : Bool := charListLe a.toList b.toList

/-- Arithmetic mean of a list of rationals (`Series.mean`); the mean of an
empty list is `0 / 0 = 0`. -/
def listMean (l : List Rat) : Rat := l.sum / (l.length : Rat)

/-- Round to one decimal place, ties to even (numpy/pandas `.round(1)`
semantics on exact values). -/
def roundTenth (x : Rat) : Rat :=
  ((if 10 * x - (⌊10 * x⌋ : Rat) < 1/2 then ⌊10 * x⌋
    else if 1/2 < 10 * x - (⌊10 * x⌋ : Rat) then ⌊10 * x⌋ + 1
    else if ⌊10 * x⌋ % 2 = 0 then ⌊10 * x⌋
    else ⌊10 * x⌋ + 1 : Int) : Rat) / 10

/-- One processed transaction row, as produced by
`DataProcessor.process_data`.  `invoice_id` is meaningful only when the
frame's `hasInvoice` flag is set (the column is optional). -/
structure Row where
  date : Nat
  product : String
  quantity : Rat
  total : Rat
  month_year : String
  behavior_category : String
  invoice_id : String
deriving Repr, DecidableEq

/-- A processed transaction table. -/
structure Frame where
  rows : List Row
  hasInvoice : Bool
deriving Repr, DecidableEq

/-- Columns always materialised by `process_data`. -/
def baseColumns : List String :=
  ["date", "product", "quantity", "price", "total", "year", "month",
   "month_year", "day_of_week", "week", "behavior_category"]

/-- The set of column names of a frame. -/
def Frame.columns (f : Frame) : List String :=
  baseColumns ++ (if f.hasInvoice then ["invoice_id"] else [])

/-- Distinct keys of a pandas groupby, in ascending order. -/
def sortedKeys (l : List String) : List String :=
  List.insertionSort (fun a b => strLe a b = true) l.dedup

/-- Distinct `Nat` keys of a pandas groupby, in ascending order. -/
def sortedNatKeys (l : List Nat) : List Nat :=
  List.insertionSort (fun a b => a ≤ b) l.dedup

/-- `AnalyticsService.__init__`: the date filter is applied only when both
bounds are supplied (`if start_date and end_date:`); otherwise the full
table is used.  Bounds are already-parsed inclusive day indices. -/
def analyticsView (rows : List Row) (startDate endDate : Option Nat) : List Row :=
  match startDate, endDate with
  | some s, some e => rows.filter (fun r => s ≤ r.date ∧ r.date ≤ e)
  | _, _ => rows

/-- Result record of `AnalyticsService.get_kpis`. -/
structure Kpis where
  totalRevenue : Rat
  totalTransactions : Nat
  totalUnits : Rat
  uniqueProducts : Nat
  avgTransactionValue : Rat
  avgUnitsPerTransaction : Rat
  momGrowth : Rat
deriving Repr, DecidableEq

/-- Revenue of one month group: sum of `total` over rows of that period. -/
def monthRevenue (rows : List Row) (m : String) : Rat :=
  ((rows.filter (fun r => r.month_year = m)).map Row.total).sum

/-- `df.groupby('month_year')['total'].sum().sort_index()`: monthly revenue
in ascending period order. -/
def monthlyRevenueSeries (rows : List Row) : List Rat :=
  (sortedKeys (rows.map Row.month_year)).map (monthRevenue rows)

/-- Month-over-month growth block of `get_kpis` (lines 237-244). -/
def momGrowthOf (rows : List Row) : Rat :=
  match (monthlyRevenueSeries rows).reverse with
  | current :: previous :: _ =>
      if 0 < previous then (current - previous) / previous * 100 else 0
  | _ => 0

/-- `AnalyticsService.get_kpis`. -/
def get_kpis (f : Frame) : Kpis :=
  let df := f.rows
  if df.isEmpty then
    { totalRevenue := 0, totalTransactions := 0, totalUnits := 0,
      uniqueProducts := 0, avgTransactionValue := 0,
      avgUnitsPerTransaction := 0, momGrowth := 0 }
  else
    let totalRevenue := (df.map Row.total).sum
    let totalTransactions : Nat :=
      if f.hasInvoice then (df.map Row.invoice_id).dedup.length else df.length
    let totalUnits := (df.map Row.quantity).sum
    let uniqueProducts := (df.map Row.product).dedup.length
    { totalRevenue := totalRevenue,
      totalTransactions := totalTransactions,
      totalUnits := totalUnits,
      uniqueProducts := uniqueProducts,
      avgTransactionValue :=
        if 0 < totalTransactions then totalRevenue / (totalTransactions : Rat) else 0,
      avgUnitsPerTransaction :=
        if 0 < totalTransactions then totalUnits / (totalTransactions : Rat) else 0,
      momGrowth := momGrowthOf df }

/-- One row of `AnalyticsService.get_revenue_trend`'s result. -/
structure TrendRow where
  period : String
  revenue : Rat
  units : Rat
  transactions : Rat
  growth : Rat
deriving Repr, DecidableEq

/-- `DataFrame.agg` with a dict raises `KeyError` unless every column named
by the dict exists in the frame. -/
def aggColumnsOk (f : Frame) (cols : List String) : Bool :=
  cols.all (fun c => f.columns.contains c)

/-- Transactions of one group of rows: distinct `invoice_id` count when the
column exists, else the row count (`'nunique' if ... else 'count'`). -/
def groupTransactions (f : Frame) (grp : List Row) : Rat :=
  if f.hasInvoice then ((grp.map Row.invoice_id).dedup.length : Rat)
  else (grp.length : Rat)

/-- `AnalyticsService.get_revenue_trend`.  The agg dict always names the
`invoice_id` column (its value is `'nunique'` or `'count'`), so the agg
raises `KeyError` when that column does not exist. -/
def get_revenue_trend (f : Frame) : Except String (List TrendRow) :=
  if f.rows.isEmpty then .ok []
  else if aggColumnsOk f ["total", "quantity", "invoice_id"] then
    let ms := sortedKeys (f.rows.map Row.month_year)
    let base := ms.map (fun m =>
      let grp := f.rows.filter (fun r => r.month_year = m)
      (m, (grp.map Row.total).sum, (grp.map Row.quantity).sum,
        groupTransactions f grp))
    let rows := (List.range base.length).map (fun i =>
      let q := base.getD i ("", 0, 0, 0)
      let growth : Rat :=
        if i = 0 then 0
        else
          let prev := (base.getD (i - 1) ("", 0, 0, 0)).2.1
          (q.2.1 / prev - 1) * 100
      { period := q.1, revenue := q.2.1, units := q.2.2.1,
        transactions := q.2.2.2, growth := growth })
    .ok rows
  else .error "KeyError: invoice_id"

/-- One row of `AnalyticsService.get_top_products`'s result. -/
structure ProductRow where
  name : String
  revenue : Rat
  units : Rat
  transactions : Rat
  avgQtyPerTxn : Rat
deriving Repr, DecidableEq

/-- `AnalyticsService.get_top_products`: like the trend, its agg dict always
names the `invoice_id` column, so it raises `KeyError` when absent. -/
def get_top_products (f : Frame) (n : Nat) : Except String (List ProductRow) :=
  if f.rows.isEmpty then .ok []
  else if aggColumnsOk f ["total", "quantity", "invoice_id"] then
    let ps := sortedKeys (f.rows.map Row.product)
    let base := ps.map (fun p =>
      let grp := f.rows.filter (fun r => r.product = p)
      { name := p, revenue := (grp.map Row.total).sum,
        units := (grp.map Row.quantity).sum,
        transactions := groupTransactions f grp,
        avgQtyPerTxn := 0 })
    let sorted :=
      (List.insertionSort (fun a b : ProductRow => b.revenue ≤ a.revenue) base).take n
    .ok (sorted.map (fun r => { r with avgQtyPerTxn := r.units / r.transactions }))
  else .error "KeyError: invoice_id"

/-- One row of `AnalyticsService.get_category_performance`'s result. -/
structure CategoryRow where
  category : String
  revenue : Rat
  units : Rat
  products : Nat
  percentage : Rat
  label : Option String
  suggestedMarkup : Option Nat
deriving Repr, DecidableEq

/-- Static label map attached by `get_category_performance` (pandas `.map`
yields NaN, here `none`, for unknown keys). -/
def categoryLabel (c : String) : Option String :=
  ([("acute", "I need it NOW"), ("chronic", "I buy EVERY month"),
    ("convenience", "I just grabbed it"), ("recurring", "I buy this regularly")]
    : List (String × String)).lookup c

/-- Static suggested-markup map attached by `get_category_performance`. -/
def categoryMarkup (c : String) : Option Nat :=
  ([("acute", 45), ("chronic", 30), ("convenience", 40), ("recurring", 35)]
    : List (String × Nat)).lookup c

/-- The grouped category table of `get_category_performance`, before the
percentage column is attached (it is initialised to 0 here). -/
def categoryBase (f : Frame) : List CategoryRow :=
  (sortedKeys (f.rows.map Row.behavior_category)).map (fun c =>
    { category := c,
      revenue := ((f.rows.filter
        (fun r => r.behavior_category = c)).map Row.total).sum,
      units := ((f.rows.filter
        (fun r => r.behavior_category = c)).map Row.quantity).sum,
      products := ((f.rows.filter
        (fun r => r.behavior_category = c)).map Row.product).dedup.length,
      percentage := 0, label := categoryLabel c,
      suggestedMarkup := categoryMarkup c })

/-- `total_revenue` of `get_category_performance`: the sum of the grouped
category revenues. -/
def categoryTotal (f : Frame) : Rat :=
  ((categoryBase f).map CategoryRow.revenue).sum

/-- The category table with each category's rounded percentage share of
total revenue attached. -/
def categoryWithPct (f : Frame) : List CategoryRow :=
  (categoryBase f).map (fun r =>
    { r with percentage := roundTenth (r.revenue / categoryTotal f * 100) })

/-- `AnalyticsService.get_category_performance`. -/
def get_category_performance (f : Frame) : List CategoryRow :=
  if f.rows.isEmpty then []
  else
    List.insertionSort (fun a b : CategoryRow => b.revenue ≤ a.revenue)
      (categoryWithPct f)

/-- One product line of `AnalyticsService.get_abc_analysis`. -/
structure AbcProduct where
  product : String
  revenue : Rat
  units : Rat
  cumulative_pct : Rat
  abcClass : String
deriving Repr, DecidableEq

/-- One summary line of `AnalyticsService.get_abc_analysis`. -/
structure AbcSummaryRow where
  abcClass : String
  count : Nat
  revenue : Rat
  percentage : Rat
deriving Repr, DecidableEq

/-- Partial sums of a list (pandas `cumsum`). -/
def partialSums (l : List Rat) : List Rat :=
  (l.scanl (· + ·) 0).tail

/-- The class-assignment lambda of `get_abc_analysis` (line 347):
`'A' if x <= 0.8 else ('B' if x <= 0.95 else 'C')`. -/
def abcClassOf (x : Rat) : String :=
  if x ≤ 4/5 then "A" else if x ≤ 19/20 then "B" else "C"

/-- Per-product grouping of `get_abc_analysis` before the sort: distinct
products in groupby order with summed revenue and units. -/
def abcBase (rows : List Row) : List (String × Rat × Rat) :=
  (sortedKeys (rows.map Row.product)).map (fun p =>
    let grp := rows.filter (fun r => r.product = p)
    (p, (grp.map Row.total).sum, (grp.map Row.quantity).sum))

/-- Total revenue over the grouped products of `get_abc_analysis`. -/
def abcTotal (rows : List Row) : Rat :=
  ((abcBase rows).map (fun q => q.2.1)).sum

/-- The grouped products of `get_abc_analysis` after
`sort_values('revenue', ascending=False)`. -/
def abcSortedBase (rows : List Row) : List (String × Rat × Rat) :=
  List.insertionSort (fun a b : String × Rat × Rat => b.2.1 ≤ a.2.1) (abcBase rows)

/-- One detail line of `get_abc_analysis`: a sorted product entry together
with its cumulative revenue value `c`, giving the cumulative fraction
`c / total` and the class assigned by the lambda. -/
def abcMk (total : Rat) (p : String × Rat × Rat) (c : Rat) : AbcProduct :=
  { product := p.1, revenue := p.2.1, units := p.2.2,
    cumulative_pct := c / total, abcClass := abcClassOf (c / total) }

/-- The product table of `get_abc_analysis` after sorting descending by
revenue and attaching cumulative revenue fraction and class. -/
def abcSortedProducts (rows : List Row) : List AbcProduct :=
  List.zipWith (abcMk (abcTotal rows)) (abcSortedBase rows)
    (partialSums ((abcSortedBase rows).map (fun q => q.2.1)))

/-- The per-class summary of `get_abc_analysis` (groupby on `class`). -/
def abcSummary (rows : List Row) : List AbcSummaryRow :=
  let ps := abcSortedProducts rows
  let total := abcTotal rows
  (sortedKeys (ps.map AbcProduct.abcClass)).map (fun c =>
    let grp := ps.filter (fun r => r.abcClass = c)
    { abcClass := c, count := grp.length,
      revenue := (grp.map AbcProduct.revenue).sum,
      percentage := roundTenth ((grp.map AbcProduct.revenue).sum / total * 100) })

/-- `AnalyticsService.get_abc_analysis`: summary plus top-100 detail. -/
def get_abc_analysis (rows : List Row) :
    List AbcSummaryRow × List AbcProduct :=
  if rows.isEmpty then ([], [])
  else (abcSummary rows, (abcSortedProducts rows).take 100)

/-- The methods defined on `AnalyticsService` in
`backend/app/services/data_service.py` (class body, lines 200-671). -/
def analyticsServiceMethods : List String :=
  ["get_kpis", "get_revenue_trend", "get_top_products",
   "get_category_performance", "get_abc_analysis",
   "get_day_of_week_analysis", "get_product_details", "search_products",
   "compare_products", "get_inventory_alerts", "get_reorder_suggestions",
   "get_seasonality_analysis", "generate_preliminary_analysis"]

/-- The methods `get_data_context` (`intelligence.py` lines 44-67) invokes
on the `AnalyticsService` instance; both the `include_full_lists` branch
and the sample branch invoke the last two. -/
def getDataContextCalls : List String :=
  ["get_kpis", "get_category_performance", "get_abc_analysis",
   "get_revenue_trend", "get_top_products", "get_inventory_alerts",
   "get_seasonality_analysis", "generate_preliminary_analysis",
   "get_all_dead_stock", "get_all_fast_movers"]

/-- Python attribute lookup over a class's method table: the first call to
a name the class does not define raises `AttributeError`. -/
def resolveCalls (calls methods : List String) : Except String Unit :=
  match calls.find? (fun c => !(methods.contains c)) with
  | some c => .error ("AttributeError: " ++ c)
  | none => .ok ()

/-! Forecasting (`backend/app/routers/forecasting.py`). -/

/-- One entry of a prepared monthly series, abstracted to its month index
(`ds`, first-of-month date as absolute month number) and forecast value.
`pd.DateOffset(months = k)` is `ds + k`, and the `"%Y-%m"` period key of a
date is in bijection with its `ds`. -/
structure MEntry where
  ds : Nat
  value : Rat
deriving Repr, DecidableEq

/-- One forecast point: period key (month index), central estimate and
confidence band. -/
structure FPoint where
  period : Nat
  forecast : Rat
  lower : Rat
  upper : Rat
deriving Repr, DecidableEq

/-- `forecast_moving_average` (forecasting.py lines 167-196): rolling mean
of the last `window` values plus a trailing-change linear trend, floored at
0, band 0.85 / 1.15.  `maClean` lists the defined entries of
`series.rolling(window).mean()` (one mean per full window). -/
def forecast_moving_average (ts : List MEntry) (periods window : Nat) :
    Option (List FPoint × Rat) :=
  if ts.length < max 3 window then none
  else
    let series := ts.map MEntry.value
    let lastDate := ((ts.getLast?).map MEntry.ds).getD 0
    let maClean := (List.range (series.length + 1 - window)).map
      (fun i => listMean ((series.drop i).take window))
    let lastMa := (maClean.getLast?).getD 0
    let trend : Rat :=
      match maClean.reverse with
      | a :: b :: _ => a - b
      | _ => 0
    let forecasts := (List.range periods).map (fun i =>
      let fv := max 0 (lastMa + trend * (i + 1 : Nat))
      { period := lastDate + i + 1, forecast := fv,
        lower := max 0 (fv * (17/20)), upper := fv * (23/20) })
    some (forecasts, trend)

/-- `Series.ewm(alpha, adjust=False).mean()`: `e 0 = x 0`,
`e t = alpha * x t + (1 - alpha) * e (t-1)`. -/
def emaList (a : Rat) (l : List Rat) : List Rat :=
  match l with
  | [] => []
  | x :: xs => List.scanl (fun e v => a * v + (1 - a) * e) x xs

/-- `forecast_exponential_smoothing` (lines 199-227): exponentially
weighted mean plus trailing one-step delta, floored at 0, band 0.85 / 1.15. -/
def forecast_exponential_smoothing (ts : List MEntry) (periods : Nat) (a : Rat) :
    Option (List FPoint × Rat) :=
  if ts.length < 3 then none
  else
    let ema := emaList a (ts.map MEntry.value)
    let lastEma := (ema.getLast?).getD 0
    let lastDate := ((ts.getLast?).map MEntry.ds).getD 0
    let trend : Rat :=
      match ema.reverse with
      | x :: y :: _ => x - y
      | _ => 0
    let forecasts := (List.range periods).map (fun i =>
      let fv := max 0 (lastEma + trend * (i + 1 : Nat))
      { period := lastDate + i + 1, forecast := fv,
        lower := max 0 (fv * (17/20)), upper := fv * (23/20) })
    some (forecasts, trend)

/-- Calendar month (1-12) of an absolute month index. -/
def monthOf (ds : Nat) : Nat := ds % 12 + 1

/-- `forecast_seasonal` (lines 230-281): per-calendar-month seasonal index,
OLS trend over deseasonalized values, re-seasonalized projection, floored
at 0, band 0.80 / 1.20.  Returns the points, the OLS slope, and the
seasonal index table. -/
def forecast_seasonal (ts : List MEntry) (periods : Nat) :
    Option (List FPoint × Rat × List (Nat × Rat)) :=
  if ts.length < 6 then none
  else
    let months := sortedNatKeys (ts.map (fun e => monthOf e.ds))
    let overallAvg0 := listMean (ts.map MEntry.value)
    let overallAvg := if overallAvg0 = 0 then 1 else overallAvg0
    let seasonalIndices := months.map (fun m =>
      (m, listMean ((ts.filter (fun e => monthOf e.ds = m)).map MEntry.value)
            / overallAvg))
    let idxOf := fun (m : Nat) =>
      (((seasonalIndices.find? (fun q => q.1 = m)).map (fun q => q.2)).getD 1)
    let deseasonalized := ts.map (fun e =>
      e.value / (let i := idxOf (monthOf e.ds); if i = 0 then 1 else i))
    let n := ts.length
    let xs := (List.range n).map (fun t => (t : Rat))
    let xMean := listMean xs
    let yMean := listMean deseasonalized
    let denom := (xs.map (fun x => (x - xMean) ^ 2)).sum
    let slope :=
      if denom = 0 then 0
      else (List.zipWith (fun x y => (x - xMean) * (y - yMean)) xs deseasonalized).sum
            / denom
    let intercept := yMean - slope * xMean
    let lastDate := ((ts.getLast?).map MEntry.ds).getD 0
    let lastT := n - 1
    let forecasts := (List.range periods).map (fun i =>
      let fdate := lastDate + i + 1
      let tv := intercept + slope * ((lastT + i + 1 : Nat) : Rat)
      let sv := idxOf (monthOf fdate)
      let fv := max 0 (tv * sv)
      { period := fdate, forecast := fv,
        lower := max 0 (fv * (4/5)), upper := fv * (6/5) })
    some (forecasts, slope, seasonalIndices)

/-! Time-series preparation (`prepare_time_series`, forecasting.py lines
59-132). -/

/-- Value of a decimal digit character, `none` for non-digits. -/
def digitVal (c : Char) : Option Nat :=
  if 48 ≤ c.toNat ∧ c.toNat ≤ 57 then some (c.toNat - 48) else none

/-- The seven-character core of the period parser: four year digits, a
dash, two month digits in 01-12. -/
def parseCore (y1 y2 y3 y4 d m1 m2 : Char) : Option Nat :=
  if d = '-' then
    (digitVal y1).bind fun a =>
    (digitVal y2).bind fun b =>
    (digitVal y3).bind fun c =>
    (digitVal y4).bind fun e =>
    (digitVal m1).bind fun g =>
    (digitVal m2).bind fun h =>
      if 1 ≤ g * 10 + h ∧ g * 10 + h ≤ 12 then
        some ((((a * 10 + b) * 10 + c) * 10 + e) * 12 + (g * 10 + h - 1))
      else none
  else none

/-- Parse a canonical `"YYYY-MM"` period key (the form `month_year` takes
after ingestion, `dt.to_period('M').astype(str)`) to its absolute month
index; `none` models `pd.to_datetime(period + "-01", errors="coerce")`
producing `NaT` for an unparseable period. -/
def parsePeriodAux (l : List Char) : Option Nat :=
  match l with
  | [y1, y2, y3, y4, d, m1, m2] => parseCore y1 y2 y3 y4 d m1 m2
  | _ => none

/-- String-level wrapper of `parsePeriodAux`. -/
def parsePeriod (s : String) : Option Nat :=
  parsePeriodAux s.toList

/-- One row of the prepared monthly series. -/
structure TSRow where
  period : String
  ds : Nat
  value : Rat
  revenue : Rat
  units : Rat
  transactions : Rat
deriving Repr, DecidableEq

/-- ASCII whitespace test for Python's `str.strip`. -/
def charIsSpace (c : Char) : Bool :=
  c.toNat = 32 ∨ c.toNat = 9 ∨ c.toNat = 10 ∨ c.toNat = 13

/-- ASCII lower-casing for Python's `str.lower` (the recognised metric
aliases are all ASCII). -/
def lowerChar (c : Char) : Char :=
  if 65 ≤ c.toNat ∧ c.toNat ≤ 90 then Char.ofNat (c.toNat + 32) else c

/-- Python's `s.strip().lower()` on the metric selector string. -/
def stripLower (s : String) : String :=
  String.mk ((((s.toList.dropWhile charIsSpace).reverse.dropWhile
    charIsSpace).reverse).map lowerChar)

/-- `_normalize_forecast_type` (lines 43-56). -/
def normalizeForecastType (s : String) : String :=
  if stripLower s = "total_revenue" ∨ stripLower s = "revenue" ∨
      stripLower s = "sales" ∨ stripLower s = "amount" then
    "revenue"
  else if stripLower s = "units" ∨ stripLower s = "quantity" ∨
      stripLower s = "qty" then "units"
  else if stripLower s = "transactions" ∨ stripLower s = "txns" ∨
      stripLower s = "transaction" ∨ stripLower s = "orders" then
    "transactions"
  else "revenue"

/-- The invoice-like column aliases `prepare_time_series` recognises
(line 90); note the processed schema's `invoice_id` is not among them. -/
def txnColCandidates : List String :=
  ["transaction_id", "invoice", "invoice_no", "receipt", "receipt_no", "bill_no"]

/-- The transaction-id column `prepare_time_series` picks. -/
def txnColOf (f : Frame) : Option String :=
  txnColCandidates.find? (fun c => f.columns.contains c)

/-- The product filter applied by `prepare_time_series`. -/
def preparedRows (f : Frame) (product : Option String) : List Row :=
  match product with
  | some p => f.rows.filter (fun r => r.product = p)
  | none => f.rows

/-- One output row of `prepare_time_series` for month group `m` with parsed
date `d`: per-month aggregates and the selected metric value. -/
def mkTSRow (df : List Row) (ft : String) (m : String) (d : Nat) : TSRow :=
  let grp := df.filter (fun r => r.month_year = m)
  let revenue := (grp.map Row.total).sum
  let units := (grp.map Row.quantity).sum
  let transactions := (grp.length : Rat)
  { period := m, ds := d,
    value :=
      if ft = "units" then units
      else if ft = "transactions" then transactions
      else revenue,
    revenue := revenue, units := units, transactions := transactions }

/-- `prepare_time_series` (lines 59-132): monthly grouping, period parsing
(coerce plus `dropna`), ascending sort by date, metric selection.  Since no
`txnColCandidates` alias exists in the processed schema (see
`txnColOf_eq_none` below), transactions are the per-month row counts. -/
def prepare_time_series (f : Frame) (product : Option String)
    (forecast_type : String) : Except String (List TSRow) :=
  if (preparedRows f product).isEmpty then .ok []
  else if !(f.columns.contains "month_year") then
    .error "Missing required column: month_year"
  else if !(f.columns.contains "product") then
    .error "Missing required column: product"
  else
    .ok (List.insertionSort (fun a b : TSRow => a.ds ≤ b.ds)
      ((sortedKeys ((preparedRows f product).map Row.month_year)).filterMap
        (fun m => (parsePeriod m).map
          (mkTSRow (preparedRows f product)
            (normalizeForecastType forecast_type) m))))

/-! Accuracy evaluation (`forecast_accuracy_test`, forecasting.py lines
436-537). -/

/-- One detail line of the accuracy result: period, actual, predicted. -/
structure AccDetail where
  period : Nat
  actual : Rat
  predicted : Rat
deriving Repr, DecidableEq

/-- The accuracy metrics.  The source reports `RMSE = sqrt(MSE)`; the mean
squared error `mse` is recorded here and the square root is taken in the
statements. -/
structure AccResult where
  mae : Rat
  mse : Rat
  mape : Rat
  details : List AccDetail
deriving Repr, DecidableEq

/-- Auto-selection of the method on the training slice: seasonal with at
least 6 training months, else exponential smoothing. -/
def pickedMethod (trainLen : Nat) (method : String) : String :=
  if method = "auto" then
    if 6 ≤ trainLen then "seasonal" else "exponential"
  else method

/-- Forecast-point production of `forecast_accuracy_test` on the training
slice: method dispatch with auto-selection on training length and the
seasonal-to-exponential fallback. -/
def accuracyForecasts (train : List MEntry) (holdout : Nat) (method : String) :
    Option (List FPoint) :=
  if pickedMethod train.length method = "moving_average" then
    (forecast_moving_average train holdout 3).map (fun o => o.1)
  else if pickedMethod train.length method = "seasonal" then
    match forecast_seasonal train holdout with
    | some o => some o.1
    | none => (forecast_exponential_smoothing train holdout (3/10)).map (fun o => o.1)
  else (forecast_exponential_smoothing train holdout (3/10)).map (fun o => o.1)

/-- The aligned (actual, predicted) pairs: one per held-out row, predicted
value looked up in the forecast map by period key with default `0`
(`pred_map.get(p, 0.0)`, lines 499-508). -/
def alignedDetails (test : List MEntry) (forecasts : List FPoint) : List AccDetail :=
  test.map (fun r =>
    { period := r.ds, actual := r.value,
      predicted :=
        (((forecasts.find? (fun fp => fp.period = r.ds)).map FPoint.forecast).getD 0) })

/-- The metric record built from the aligned pairs (`n` is the number of
pairs). -/
def accResultOf (test : List MEntry) (forecasts : List FPoint) : AccResult :=
  { mae := (((alignedDetails test forecasts).map
        (fun d => |d.actual - d.predicted|)).sum)
      / ((alignedDetails test forecasts).length : Rat),
    mse := (((alignedDetails test forecasts).map
        (fun d => (d.actual - d.predicted) ^ 2)).sum)
      / ((alignedDetails test forecasts).length : Rat),
    mape := (((alignedDetails test forecasts).map (fun d =>
        |(d.actual - d.predicted)
          / (if d.actual = 0 then 1 else d.actual)|)).sum)
      / ((alignedDetails test forecasts).length : Rat) * 100,
    details := alignedDetails test forecasts }

/-- `forecast_accuracy_test`: insufficient-data guard, train/test split,
method dispatch, alignment and MAE / MSE / MAPE computation (MAPE
substitutes denominator 1 for zero actuals). -/
def forecast_accuracy_test (ts : List MEntry) (holdout : Nat) (method : String) :
    Except String AccResult :=
  if ts.length < 3 + holdout then
    .error "Insufficient data for accuracy test"
  else
    match accuracyForecasts (ts.take (ts.length - holdout)) holdout method with
    | none => .error "Unable to run accuracy test"
    | some forecasts =>
      .ok (accResultOf (ts.drop (ts.length - holdout)) forecasts)

/-- Modelled from the spec's words, for comparison with the source's
alignment: "align each [forecast point] to the corresponding held-out
actual by period key (treat any forecast period with no matching actual as
actual=0)", i.e. one pair per forecast point, with the actual defaulted to
0, and MAE the mean absolute error over those pairs. -/
def claimAlignedMAE (ts : List MEntry) (holdout : Nat) (method : String) : Rat :=
  let train := ts.take (ts.length - holdout)
  let test := ts.drop (ts.length - holdout)
  match accuracyForecasts train holdout method with
  | none => 0
  | some forecasts =>
    let pairs := forecasts.map (fun fp =>
      ((((test.find? (fun r => r.ds = fp.period)).map MEntry.value).getD 0),
        fp.forecast))
    ((pairs.map (fun q => |q.1 - q.2|)).sum) / (pairs.length : Rat)

/-! Supporting lemmas. -/

/-- None of the invoice-like aliases `prepare_time_series` looks for exists
in the processed schema (the processed column is named `invoice_id`, which
is not among the aliases), so its transaction counts are always per-month
row counts. -/
theorem txnColOf_eq_none (f : Frame) : txnColOf f = none := by
  cases hb : f.hasInvoice <;>
    simp [txnColOf, txnColCandidates, Frame.columns, baseColumns, hb]

theorem sortedKeys_nodup (l : List String) : (sortedKeys l).Nodup :=
  ((List.perm_insertionSort _ l.dedup).nodup_iff).mpr l.nodup_dedup

theorem mem_sortedKeys {l : List String} {a : String} :
    a ∈ sortedKeys l ↔ a ∈ l := by
  rw [sortedKeys, List.mem_insertionSort, List.mem_dedup]

theorem length_sortedKeys (l : List String) :
    (sortedKeys l).length = l.dedup.length :=
  List.length_insertionSort _ _

/-- A shared concrete row builder for the witness inputs. -/
def mkRow (p : String) (t : Rat) (my : String) (cat : String) : Row :=
  { date := 0, product := p, quantity := 1, total := t, month_year := my,
    behavior_category := cat, invoice_id := "" }

/-! Claim theorems. -/

/-- A one-row table without the `invoice_id` column: the failing input for
the invoice-fallback claim. -/
def noInvoiceFrame : Frame :=
  { rows := [mkRow "A" 5 "2024-01" "acute"], hasInvoice := false }

/-- C2: on a table without an `invoice_id` column, `get_kpis` does fall
back to the row count for the transaction total, but `get_revenue_trend`
and `get_top_products` raise `KeyError` instead of falling back, because
their agg dicts always name the `invoice_id` column.  This contradicts the
claim that all three operations succeed with row counts. -/
theorem c2_invoice_fallback_bug :
    (get_kpis noInvoiceFrame).totalTransactions = noInvoiceFrame.rows.length ∧
    (get_kpis noInvoiceFrame).totalTransactions = 1 ∧
    get_revenue_trend noInvoiceFrame = .error "KeyError: invoice_id" ∧
    get_top_products noInvoiceFrame 10 = .error "KeyError: invoice_id" := by
  refine ⟨rfl, rfl, ?_, ?_⟩ <;> rfl

/-- C3: `get_data_context` invokes `get_all_dead_stock` and
`get_all_fast_movers` on the `AnalyticsService` instance, but the class
defines neither, so the claimed uncapped inventory-alert operations do not
exist and every `get_data_context` call fails attribute resolution. -/
theorem c3_missing_methods :
    analyticsServiceMethods.contains "get_all_dead_stock" = false ∧
    analyticsServiceMethods.contains "get_all_fast_movers" = false ∧
    getDataContextCalls.contains "get_all_dead_stock" = true ∧
    getDataContextCalls.contains "get_all_fast_movers" = true ∧
    resolveCalls getDataContextCalls analyticsServiceMethods =
      .error "AttributeError: get_all_dead_stock" := by
  refine ⟨rfl, rfl, rfl, rfl, rfl⟩

/-- C4: each forecast method returns `none` (no forecast available) when
the prepared series is shorter than its precondition: `max 3 window` for
the moving average, 3 for exponential smoothing, 6 for seasonal
decomposition. -/
theorem c4_precondition_unavailable :
    (∀ (ts : List MEntry) (periods window : Nat), ts.length < max 3 window →
      forecast_moving_average ts periods window = none) ∧
    (∀ (ts : List MEntry) (periods : Nat) (a : Rat), ts.length < 3 →
      forecast_exponential_smoothing ts periods a = none) ∧
    (∀ (ts : List MEntry) (periods : Nat), ts.length < 6 →
      forecast_seasonal ts periods = none) := by
  refine ⟨fun ts periods window h => ?_, fun ts periods a h => ?_,
    fun ts periods h => ?_⟩
  · rw [forecast_moving_average, if_pos h]
  · rw [forecast_exponential_smoothing, if_pos h]
  · rw [forecast_seasonal, if_pos h]

/-- Witness for C4 at concrete short series. -/
theorem c4_precondition_unavailable_witness :
    forecast_moving_average [⟨0, 1⟩] 3 3 = none ∧
    forecast_exponential_smoothing [⟨0, 1⟩, ⟨1, 1⟩] 3 (3/10) = none ∧
    forecast_seasonal [⟨0, 1⟩, ⟨1, 1⟩, ⟨2, 1⟩, ⟨3, 1⟩, ⟨4, 1⟩] 3 = none :=
  ⟨c4_precondition_unavailable.1 [⟨0, 1⟩] 3 3 (by decide),
   c4_precondition_unavailable.2.1 [⟨0, 1⟩, ⟨1, 1⟩] 3 (3/10) (by decide),
   c4_precondition_unavailable.2.2 [⟨0, 1⟩, ⟨1, 1⟩, ⟨2, 1⟩, ⟨3, 1⟩, ⟨4, 1⟩] 3
     (by decide)⟩

/-- C10: the date filter of `AnalyticsService.__init__` applies only when
both bounds are supplied; with exactly one bound (or none), the view is the
full unfiltered table, so every operation computes over the full table. -/
theorem c10_one_sided_filter_ignored :
    ∀ (rows : List Row) (s e : Nat) (hasInv : Bool),
      analyticsView rows (some s) none = rows ∧
      analyticsView rows none (some e) = rows ∧
      analyticsView rows none none = rows ∧
      get_kpis ⟨analyticsView rows (some s) none, hasInv⟩ =
        get_kpis ⟨rows, hasInv⟩ ∧
      get_abc_analysis (analyticsView rows none (some e)) =
        get_abc_analysis rows := by
  intro rows s e hasInv
  refine ⟨rfl, rfl, rfl, rfl, rfl⟩

/-- C5: whenever a forecast method produces points, every point has a
non-negative central estimate, lower bound `max 0 (0.85 * estimate)` and
upper bound `1.15 * estimate` (0.80 / 1.20 for seasonal decomposition),
hence `lower ≤ estimate ≤ upper` and no forecast value is negative. -/
theorem c5_forecast_bands :
    (∀ (ts : List MEntry) (periods window : Nat) (out : List FPoint × Rat),
      0 < window → forecast_moving_average ts periods window = some out →
      ∀ f ∈ out.1, 0 ≤ f.forecast ∧ f.lower = max 0 (f.forecast * (17/20)) ∧
        f.upper = f.forecast * (23/20) ∧ f.lower ≤ f.forecast ∧
        f.forecast ≤ f.upper) ∧
    (∀ (ts : List MEntry) (periods : Nat) (a : Rat) (out : List FPoint × Rat),
      forecast_exponential_smoothing ts periods a = some out →
      ∀ f ∈ out.1, 0 ≤ f.forecast ∧ f.lower = max 0 (f.forecast * (17/20)) ∧
        f.upper = f.forecast * (23/20) ∧ f.lower ≤ f.forecast ∧
        f.forecast ≤ f.upper) ∧
    (∀ (ts : List MEntry) (periods : Nat)
        (out : List FPoint × Rat × List (Nat × Rat)),
      forecast_seasonal ts periods = some out →
      ∀ f ∈ out.1, 0 ≤ f.forecast ∧ f.lower = max 0 (f.forecast * (4/5)) ∧
        f.upper = f.forecast * (6/5) ∧ f.lower ≤ f.forecast ∧
        f.forecast ≤ f.upper) := by
  have bandMA : ∀ (fv : Rat), 0 ≤ max 0 fv ∧
      max 0 (max 0 fv * (17/20)) = max 0 (max 0 fv * (17/20)) ∧
      max 0 fv * (23/20) = max 0 fv * (23/20) ∧
      max 0 (max 0 fv * (17/20)) ≤ max 0 fv ∧
      max 0 fv ≤ max 0 fv * (23/20) := by
    intro fv
    have h0 : (0 : Rat) ≤ max 0 fv := le_max_left _ _
    exact ⟨h0, rfl, rfl,
      max_le h0 (mul_le_of_le_one_right h0 (by norm_num)),
      le_mul_of_one_le_right h0 (by norm_num)⟩
  have bandS : ∀ (fv : Rat), 0 ≤ max 0 fv ∧
      max 0 (max 0 fv * (4/5)) = max 0 (max 0 fv * (4/5)) ∧
      max 0 fv * (6/5) = max 0 fv * (6/5) ∧
      max 0 (max 0 fv * (4/5)) ≤ max 0 fv ∧
      max 0 fv ≤ max 0 fv * (6/5) := by
    intro fv
    have h0 : (0 : Rat) ≤ max 0 fv := le_max_left _ _
    exact ⟨h0, rfl, rfl,
      max_le h0 (mul_le_of_le_one_right h0 (by norm_num)),
      le_mul_of_one_le_right h0 (by norm_num)⟩
  refine ⟨fun ts periods window out hw h f hf => ?_,
    fun ts periods a out h f hf => ?_, fun ts periods out h f hf => ?_⟩
  · by_cases hlen : ts.length < max 3 window
    · rw [forecast_moving_average, if_pos hlen] at h
      exact absurd h (by simp)
    · rw [forecast_moving_average, if_neg hlen] at h
      obtain rfl := (Option.some_inj.1 h).symm
      obtain ⟨i, hi, rfl⟩ := List.mem_map.1 hf
      exact bandMA _
  · by_cases hlen : ts.length < 3
    · rw [forecast_exponential_smoothing, if_pos hlen] at h
      exact absurd h (by simp)
    · rw [forecast_exponential_smoothing, if_neg hlen] at h
      obtain rfl := (Option.some_inj.1 h).symm
      obtain ⟨i, hi, rfl⟩ := List.mem_map.1 hf
      exact bandMA _
  · by_cases hlen : ts.length < 6
    · rw [forecast_seasonal, if_pos hlen] at h
      exact absurd h (by simp)
    · rw [forecast_seasonal, if_neg hlen] at h
      obtain rfl := (Option.some_inj.1 h).symm
      obtain ⟨i, hi, rfl⟩ := List.mem_map.1 hf
      exact bandS _

/-- Six flat months of value 10, the witness series for C5. -/
def c5Series : List MEntry :=
  [⟨0, 10⟩, ⟨1, 10⟩, ⟨2, 10⟩, ⟨3, 10⟩, ⟨4, 10⟩, ⟨5, 10⟩]

/-- Witness for C5: apply the band theorem to all three methods on the
concrete flat series (forecast 10, moving-average/exponential band
8.5-11.5, seasonal band 8-12). -/
theorem c5_forecast_bands_witness :
    (0 ≤ (10 : Rat) ∧ (17/2 : Rat) = max 0 (10 * (17/20)) ∧
      (23/2 : Rat) = 10 * (23/20) ∧ (17/2 : Rat) ≤ 10 ∧ (10 : Rat) ≤ 23/2) ∧
    (0 ≤ (10 : Rat) ∧ (17/2 : Rat) = max 0 (10 * (17/20)) ∧
      (23/2 : Rat) = 10 * (23/20) ∧ (17/2 : Rat) ≤ 10 ∧ (10 : Rat) ≤ 23/2) ∧
    (0 ≤ (10 : Rat) ∧ (8 : Rat) = max 0 (10 * (4/5)) ∧
      (12 : Rat) = 10 * (6/5) ∧ (8 : Rat) ≤ 10 ∧ (10 : Rat) ≤ 12) := by
  have h1 := c5_forecast_bands.1 c5Series 1 3
    ([⟨6, 10, 17/2, 23/2⟩], 0) (by decide) (by decide)
    ⟨6, 10, 17/2, 23/2⟩ (by decide)
  have h2 := c5_forecast_bands.2.1 c5Series 1 (3/10)
    ([⟨6, 10, 17/2, 23/2⟩], 0) (by decide)
    ⟨6, 10, 17/2, 23/2⟩ (by decide)
  have h3 := c5_forecast_bands.2.2 c5Series 1
    ([⟨6, 10, 8, 12⟩], 0, [(1, 1), (2, 1), (3, 1), (4, 1), (5, 1), (6, 1)])
    (by decide) ⟨6, 10, 8, 12⟩ (by decide)
  exact ⟨h1, h2, h3⟩

/-- C6: the bridge from `get_kpis` to its month-over-month block. -/
theorem get_kpis_momGrowth (f : Frame) :
    (get_kpis f).momGrowth = momGrowthOf f.rows := by
  rw [get_kpis]
  split
  · next hempty =>
    have : f.rows = [] := by simpa [List.isEmpty_iff] using hempty
    simp [this, momGrowthOf, monthlyRevenueSeries, sortedKeys]
  · rfl

/-- C6: month-over-month revenue growth is 0 with fewer than two months in
the monthly grouping, equals `(last - prev) / prev * 100` when the previous
month's revenue is positive, and is 0 (not infinity or NaN) when the
previous month's revenue is 0. -/
theorem c6_mom_growth (f : Frame) :
    ((monthlyRevenueSeries f.rows).length < 2 → (get_kpis f).momGrowth = 0) ∧
    (∀ (current previous : Rat) (rest : List Rat),
      (monthlyRevenueSeries f.rows).reverse = current :: previous :: rest →
      ((0 < previous →
         (get_kpis f).momGrowth = (current - previous) / previous * 100) ∧
       (previous = 0 → (get_kpis f).momGrowth = 0))) := by
  rw [get_kpis_momGrowth]
  constructor
  · intro hlen
    rw [momGrowthOf]
    rcases hr : (monthlyRevenueSeries f.rows).reverse with _ | ⟨c, _ | ⟨p, rest⟩⟩
    · rfl
    · rfl
    · exfalso
      have : (monthlyRevenueSeries f.rows).length =
          ((monthlyRevenueSeries f.rows).reverse).length :=
        (List.length_reverse _).symm
      rw [hr] at this
      simp at this
      omega
  · intro current previous rest hr
    rw [momGrowthOf, hr]
    constructor
    · intro hpos
      exact if_pos hpos
    · intro h0
      exact if_neg (by rw [h0]; exact lt_irrefl 0)

/-- Two-month concrete frame for the C6 witness. -/
def c6Frame : Frame :=
  { rows := [mkRow "A" 100 "2024-01" "acute", mkRow "A" 150 "2024-02" "acute"],
    hasInvoice := false }

/-- Witness for C6: with months of revenue 100 then 150, growth is
`(150 - 100) / 100 * 100 = 50`. -/
theorem c6_mom_growth_witness :
    (get_kpis c6Frame).momGrowth = (150 - 100) / 100 * 100 :=
  ((c6_mom_growth c6Frame).2 150 100 [] (by decide)).1 (by norm_num)

theorem scanl_add_eq (l : List Rat) : ∀ s : Rat,
    List.scanl (· + ·) s l =
      (List.range (l.length + 1)).map (fun k => s + (l.take k).sum) := by
  induction l with
  | nil => intro s; rw [List.scanl]; norm_num
  | cons x t ih =>
    intro s
    rw [List.scanl, ih (s + x)]
    conv_rhs => rw [List.length_cons, List.range_succ_eq_map, List.map_cons,
      List.map_map]
    refine congrArg₂ _ ?_ ?_
    · simp
    · refine List.map_congr_left (fun k _ => ?_)
      simp [Function.comp, List.take_succ_cons, add_assoc]

theorem partialSums_eq (l : List Rat) :
    partialSums l = (List.range l.length).map (fun k => (l.take (k + 1)).sum) := by
  rw [partialSums, scanl_add_eq l 0, List.range_succ_eq_map, List.map_cons,
    List.tail_cons, List.map_map]
  exact List.map_congr_left (fun k _ => by simp [Function.comp])

theorem length_partialSums (l : List Rat) : (partialSums l).length = l.length := by
  rw [partialSums_eq, List.length_map, List.length_range]

theorem getElem_partialSums (l : List Rat) (k : Nat) (hk : k < (partialSums l).length) :
    (partialSums l).get ⟨k, hk⟩ = (l.take (k + 1)).sum := by
  have hk' : k < l.length := by rwa [length_partialSums] at hk
  simp only [List.get_eq_getElem, partialSums_eq, List.getElem_map,
    List.getElem_range]

theorem listAbsSumLe (l : List Rat) : |l.sum| ≤ (l.map (fun x => |x|)).sum := by
  induction l with
  | nil => simp
  | cons x t ih =>
    rw [List.map_cons, List.sum_cons, List.sum_cons]
    exact le_trans (abs_add x t.sum) (by linarith)

theorem listLengthEqSumOnes {α : Type} (l : List α) :
    l.length = (l.map (fun _ => (1 : Nat))).sum := by
  induction l with
  | nil => rfl
  | cons x t ih =>
    rw [List.length_cons, List.map_cons, List.sum_cons, ih]
    omega

/-- Summing a keyed value over the distinct keys, one filtered group at a
time, recovers the total sum: the groupby partition identity. -/
theorem sum_map_partition {α M : Type} [AddCommMonoid M]
    (key : α → String) (v : α → M) :
    ∀ (l : List α) (keys : List String), keys.Nodup →
      (∀ x ∈ l, key x ∈ keys) →
      (keys.map (fun k => ((l.filter (fun x => key x = k)).map v).sum)).sum =
        (l.map v).sum := by
  have single : ∀ (keys : List String) (k0 : String) (c : M), keys.Nodup →
      k0 ∈ keys → (keys.map (fun k => if k0 = k then c else 0)).sum = c := by
    intro keys k0 c hnd hmem
    induction keys with
    | nil => cases hmem
    | cons a t ih =>
      rw [List.map_cons, List.sum_cons]
      rcases List.mem_cons.1 hmem with rfl | hmem'
      · rw [if_pos rfl]
        have : ∀ x ∈ t.map (fun k => if k0 = k then c else 0), x = 0 := by
          intro x hx
          obtain ⟨k, hk, rfl⟩ := List.mem_map.1 hx
          rw [if_neg]
          rintro rfl
          exact (List.nodup_cons.1 hnd).1 hk
        rw [List.sum_eq_zero this, add_zero]
      · have hne : k0 ≠ a := by
          rintro rfl
          exact (List.nodup_cons.1 hnd).1 hmem'
        rw [if_neg hne, zero_add]
        exact ih (List.nodup_cons.1 hnd).2 hmem'
  intro l
  induction l with
  | nil =>
    intro keys _ _
    rw [List.map_nil, List.sum_nil, List.sum_eq_zero]
    intro x hx
    obtain ⟨k, _, rfl⟩ := List.mem_map.1 hx
    rw [List.filter_nil, List.map_nil, List.sum_nil]
  | cons r t ih =>
    intro keys hnd hcov
    have hsplit : ∀ k : String,
        ((r :: t).filter (fun x => key x = k)).map v
          = (if key r = k then [v r] else []) ++ (t.filter (fun x => key x = k)).map v := by
      intro k
      by_cases h : key r = k
      · rw [List.filter_cons_of_pos (by simpa using h), List.map_cons, if_pos h]
        rfl
      · rw [List.filter_cons_of_neg (by simpa using h), if_neg h, List.nil_append]
    have : keys.map (fun k => (((r :: t).filter (fun x => key x = k)).map v).sum)
        = keys.map (fun k => (if key r = k then v r else 0)
            + ((t.filter (fun x => key x = k)).map v).sum) := by
      refine List.map_congr_left (fun k _ => ?_)
      rw [hsplit k, List.sum_append]
      by_cases h : key r = k
      · rw [if_pos h, if_pos h, List.sum_cons, List.sum_nil, add_zero]
      · rw [if_neg h, if_neg h, List.sum_nil]
    rw [this, List.sum_map_add, List.map_cons, List.sum_cons,
      single keys (key r) (v r) hnd (hcov r (List.mem_cons_self r t)),
      ih keys hnd (fun x hx => hcov x (List.mem_cons_of_mem r hx))]

theorem map_revenue_zip (total : Rat) (ps : List (String × Rat × Rat)) :
    ∀ (cs : List Rat), cs.length = ps.length →
      (List.zipWith (abcMk total) ps cs).map AbcProduct.revenue =
        ps.map (fun q => q.2.1) := by
  induction ps with
  | nil => intro cs _; simp
  | cons p t ih =>
    intro cs hlen
    cases cs with
    | nil => simp at hlen
    | cons c ct =>
      rw [List.zipWith_cons_cons, List.map_cons, List.map_cons,
        ih ct (by simpa using hlen)]
      rfl

theorem length_abcSortedProducts (rows : List Row) :
    (abcSortedProducts rows).length = (abcSortedBase rows).length := by
  rw [abcSortedProducts, List.length_zipWith, length_partialSums,
    List.length_map, min_self]

theorem length_abcSortedBase (rows : List Row) :
    (abcSortedBase rows).length = (rows.map Row.product).dedup.length := by
  rw [abcSortedBase, List.length_insertionSort, abcBase, List.length_map,
    length_sortedKeys]

/-- Scenario B of the spec: products X, Y, Z with revenues 800, 150, 50
(total 1000). -/
def scenarioB : List Row :=
  [mkRow "X" 800 "2024-01" "convenience",
   mkRow "Y" 150 "2024-01" "convenience",
   mkRow "Z" 50 "2024-01" "convenience"]

/-- C1: ABC analysis sorts products descending by summed revenue, the
cumulative fraction at position `k` is the sum of the first `k + 1`
revenues over the total, the class at each position is the threshold
lambda of that fraction (`A` up to 0.80 inclusive, `B` up to 0.95
inclusive, `C` beyond), and the per-class summary counts add up to the
number of distinct products; on products X, Y, Z with revenues 800, 150,
50, the classes are exactly A, B, C with counts 1, 1, 1. -/
theorem c1_abc_analysis :
    (∀ (rows : List Row), rows ≠ [] → 0 < abcTotal rows →
      get_abc_analysis rows =
        (abcSummary rows, (abcSortedProducts rows).take 100) ∧
      (abcSortedProducts rows).Pairwise (fun a b => b.revenue ≤ a.revenue) ∧
      (∀ (k : Nat) (hk : k < (abcSortedProducts rows).length),
        ((abcSortedProducts rows).get ⟨k, hk⟩).cumulative_pct =
          (((abcSortedProducts rows).map AbcProduct.revenue).take (k + 1)).sum
            / abcTotal rows ∧
        ((abcSortedProducts rows).get ⟨k, hk⟩).abcClass =
          abcClassOf (((abcSortedProducts rows).get ⟨k, hk⟩).cumulative_pct)) ∧
      ((abcSummary rows).map AbcSummaryRow.count).sum =
        (rows.map Row.product).dedup.length) ∧
    ((abcSortedProducts scenarioB).map (fun p => (p.product, p.abcClass)) =
        [("X", "A"), ("Y", "B"), ("Z", "C")] ∧
      (abcSortedProducts scenarioB).map AbcProduct.cumulative_pct =
        [4/5, 19/20, 1] ∧
      ((abcSummary scenarioB).map AbcSummaryRow.count).sum = 3) := by
  constructor
  · intro rows hne _hpos
    have hlen2 : (partialSums ((abcSortedBase rows).map (fun q => q.2.1))).length
        = (abcSortedBase rows).length := by
      rw [length_partialSums, List.length_map]
    have hrevmap : (abcSortedProducts rows).map AbcProduct.revenue
        = (abcSortedBase rows).map (fun q => q.2.1) := by
      rw [abcSortedProducts]
      exact map_revenue_zip _ _ _ (by rw [length_partialSums, List.length_map])
    refine ⟨?_, ?_, ?_, ?_⟩
    · rw [get_abc_analysis, if_neg (by simpa [List.isEmpty_iff] using hne)]
    · -- sorted descending by revenue
      have hsorted : (abcSortedBase rows).Pairwise
          (fun a b : String × Rat × Rat => b.2.1 ≤ a.2.1) := by
        haveI : IsTotal (String × Rat × Rat)
            (fun a b : String × Rat × Rat => b.2.1 ≤ a.2.1) :=
          ⟨fun a b => le_total b.2.1 a.2.1⟩
        haveI : IsTrans (String × Rat × Rat)
            (fun a b : String × Rat × Rat => b.2.1 ≤ a.2.1) :=
          ⟨fun _ _ _ h1 h2 => le_trans h2 h1⟩
        exact List.sorted_insertionSort _ (abcBase rows)
      change (List.zipWith (abcMk (abcTotal rows)) (abcSortedBase rows)
        (partialSums ((abcSortedBase rows).map (fun q => q.2.1)))).Pairwise _
      rw [List.pairwise_iff_get]
      intro i j hij
      rw [List.get_zipWith, List.get_zipWith]
      exact List.pairwise_iff_get.1 hsorted _ _ hij
    · intro k hk
      have hk' : k < (abcSortedBase rows).length := by
        rwa [length_abcSortedProducts] at hk
      have hget : (abcSortedProducts rows).get ⟨k, hk⟩ =
          abcMk (abcTotal rows)
            ((abcSortedBase rows).get ⟨k, hk'⟩)
            ((partialSums ((abcSortedBase rows).map (fun q => q.2.1))).get
              ⟨k, by rwa [hlen2]⟩) := List.get_zipWith
      constructor
      · rw [hget, getElem_partialSums, hrevmap]
        rfl
      · rw [hget]
        rfl
    · -- class counts sum to the distinct product count
      have hcount : ∀ c : String,
          ((abcSortedProducts rows).filter (fun r => r.abcClass = c)).length
            = (((abcSortedProducts rows).filter
                (fun r => r.abcClass = c)).map (fun _ => (1 : Nat))).sum :=
        fun c => listLengthEqSumOnes _
      have : ((abcSummary rows).map AbcSummaryRow.count).sum
          = ((sortedKeys ((abcSortedProducts rows).map AbcProduct.abcClass)).map
              (fun c => (((abcSortedProducts rows).filter
                  (fun r => r.abcClass = c)).map (fun _ => (1 : Nat))).sum)).sum := by
        rw [abcSummary, List.map_map]
        exact congrArg _ (List.map_congr_left (fun c _ => hcount c))
      rw [this,
        sum_map_partition AbcProduct.abcClass (fun _ => (1 : Nat))
          (abcSortedProducts rows) _
          (sortedKeys_nodup _)
          (fun x hx => mem_sortedKeys.2 (List.mem_map_of_mem _ hx)),
        ← listLengthEqSumOnes, length_abcSortedProducts, length_abcSortedBase]
  · refine ⟨by decide, by decide, by decide⟩

/-- Witness for C1: the general conjunct applied to the concrete
scenario-B table (three products, revenues 800 / 150 / 50, positive
total). -/
theorem c1_abc_analysis_witness :
    get_abc_analysis scenarioB =
      (abcSummary scenarioB, (abcSortedProducts scenarioB).take 100) ∧
    (abcSortedProducts scenarioB).Pairwise (fun a b => b.revenue ≤ a.revenue) ∧
    ((abcSummary scenarioB).map AbcSummaryRow.count).sum =
      (scenarioB.map Row.product).dedup.length := by
  obtain ⟨h1, h2, _, h4⟩ :=
    c1_abc_analysis.1 scenarioB (by decide) (by decide)
  exact ⟨h1, h2, h4⟩

/-- The four behavior categories the classifier can assign. -/
def fourCategories : List String :=
  ["acute", "chronic", "convenience", "recurring"]

/-- Rounding to one decimal moves a value by at most 1/20 (attained at
exact ties). -/
theorem roundTenth_close (x : Rat) : |roundTenth x - x| ≤ 1/20 := by
  have h0 : (⌊10 * x⌋ : Rat) ≤ 10 * x := Int.floor_le _
  have h1 : (10 : Rat) * x < ⌊10 * x⌋ + 1 := Int.lt_floor_add_one _
  rw [roundTenth]
  split_ifs with hf1 hf2 hpar
  all_goals rw [abs_le]
  all_goals constructor
  all_goals push_cast
  all_goals linarith

theorem listSumMapSub {α : Type} (l : List α) (f g : α → Rat) :
    (l.map (fun c => f c - g c)).sum = (l.map f).sum - (l.map g).sum := by
  induction l with
  | nil => simp
  | cons a t ih =>
    rw [List.map_cons, List.map_cons, List.map_cons, List.sum_cons,
      List.sum_cons, List.sum_cons, ih]
    ring

theorem listSumConst {α : Type} (l : List α) (c : Rat) :
    (l.map (fun _ => c)).sum = (l.length : Rat) * c := by
  induction l with
  | nil => simp
  | cons a t ih =>
    rw [List.map_cons, List.sum_cons, ih, List.length_cons]
    push_cast
    ring

theorem nodupSubsetFourLength {l : List String} (hnd : l.Nodup)
    (hsub : ∀ x ∈ l, x ∈ fourCategories) : l.length ≤ 4 := by
  have h1 : l.toFinset.card = l.length := List.toFinset_card_of_nodup hnd
  have h2 : l.toFinset ⊆ fourCategories.toFinset := fun x hx =>
    List.mem_toFinset.2 (hsub x (List.mem_toFinset.1 hx))
  have h3 := Finset.card_le_card h2
  rw [h1] at h3
  exact le_trans h3 (by decide)

/-- C9 (amended): on a non-empty view with positive total revenue whose
categories are among the four classifier outputs, the per-category
revenues of `get_category_performance` sum exactly to the view's total
revenue, and the rounded percentage shares sum to 100 within 1/5 (four
categories, each rounded to one decimal with error at most 1/20; the
claimed 1/10 bound fails at exact rounding ties). -/
theorem c9_category_partition_amended :
    ∀ (f : Frame), f.rows ≠ [] →
      0 < (f.rows.map Row.total).sum →
      (∀ r ∈ f.rows, r.behavior_category ∈ fourCategories) →
      ((get_category_performance f).map CategoryRow.revenue).sum =
        (f.rows.map Row.total).sum ∧
      |((get_category_performance f).map CategoryRow.percentage).sum - 100|
        ≤ 1/5 := by
  intro f hne hpos hcats
  have hcover : ∀ r ∈ f.rows,
      r.behavior_category ∈ sortedKeys (f.rows.map Row.behavior_category) :=
    fun r hr => mem_sortedKeys.2 (List.mem_map_of_mem _ hr)
  have hnd := sortedKeys_nodup (f.rows.map Row.behavior_category)
  have hpartition :
      ((sortedKeys (f.rows.map Row.behavior_category)).map (fun c =>
        ((f.rows.filter (fun r => r.behavior_category = c)).map
          Row.total).sum)).sum = (f.rows.map Row.total).sum :=
    sum_map_partition Row.behavior_category Row.total f.rows _ hnd hcover
  -- revenue over the grouped table equals total revenue
  have hbaserev : ((categoryBase f).map CategoryRow.revenue).sum
      = (f.rows.map Row.total).sum := by
    rw [categoryBase, List.map_map]
    exact hpartition
  have hT : categoryTotal f = (f.rows.map Row.total).sum := hbaserev
  -- the pct-attachment step keeps the revenue column
  have hrevpct : (categoryWithPct f).map CategoryRow.revenue
      = (categoryBase f).map CategoryRow.revenue := by
    rw [categoryWithPct, List.map_map]
    rfl
  have hout : get_category_performance f =
      List.insertionSort (fun a b : CategoryRow => b.revenue ≤ a.revenue)
        (categoryWithPct f) := by
    rw [get_category_performance, if_neg (by simpa [List.isEmpty_iff] using hne)]
  have hperm := List.perm_insertionSort
    (fun a b : CategoryRow => b.revenue ≤ a.revenue) (categoryWithPct f)
  constructor
  · rw [hout, (hperm.map CategoryRow.revenue).sum_eq, hrevpct, hbaserev]
  · rw [hout, (hperm.map CategoryRow.percentage).sum_eq]
    have hpctmap : (categoryWithPct f).map CategoryRow.percentage
        = (sortedKeys (f.rows.map Row.behavior_category)).map (fun c =>
            roundTenth
              (((f.rows.filter (fun r => r.behavior_category = c)).map
                  Row.total).sum / (f.rows.map Row.total).sum * 100)) := by
      rw [categoryWithPct, categoryBase, List.map_map, List.map_map]
      refine List.map_congr_left (fun c _ => ?_)
      show roundTenth _ = _
      rw [hT]
    rw [hpctmap]
    -- the unrounded shares sum to exactly 100
    have hshare : ((sortedKeys (f.rows.map Row.behavior_category)).map (fun c =>
        ((f.rows.filter (fun r => r.behavior_category = c)).map
          Row.total).sum / (f.rows.map Row.total).sum * 100)).sum = 100 := by
      have hste : ((sortedKeys (f.rows.map Row.behavior_category)).map (fun c =>
          ((f.rows.filter (fun r => r.behavior_category = c)).map
            Row.total).sum / (f.rows.map Row.total).sum * 100)).sum
          = ((sortedKeys (f.rows.map Row.behavior_category)).map (fun c =>
              ((f.rows.filter (fun r => r.behavior_category = c)).map
                Row.total).sum * (100 / (f.rows.map Row.total).sum))).sum := by
        refine congrArg _ (List.map_congr_left (fun c _ => ?_))
        ring
      rw [hste, List.sum_map_mul_right, hpartition, mul_comm,
        div_mul_cancel₀]
      exact ne_of_gt hpos
    -- bound the accumulated rounding error
    have hdiff : ((sortedKeys (f.rows.map Row.behavior_category)).map (fun c =>
        roundTenth (((f.rows.filter (fun r => r.behavior_category = c)).map
          Row.total).sum / (f.rows.map Row.total).sum * 100))).sum - 100
        = ((sortedKeys (f.rows.map Row.behavior_category)).map (fun c =>
            roundTenth (((f.rows.filter (fun r => r.behavior_category = c)).map
              Row.total).sum / (f.rows.map Row.total).sum * 100)
              - ((f.rows.filter (fun r => r.behavior_category = c)).map
                Row.total).sum / (f.rows.map Row.total).sum * 100)).sum := by
      rw [listSumMapSub, hshare]
    rw [hdiff]
    refine le_trans (listAbsSumLe _) ?_
    rw [List.map_map]
    refine le_trans (List.sum_le_sum (fun c _ => roundTenth_close
      (((f.rows.filter (fun r => r.behavior_category = c)).map
        Row.total).sum / (f.rows.map Row.total).sum * 100))) ?_
    rw [listSumConst]
    have hlen : (sortedKeys (f.rows.map Row.behavior_category)).length ≤ 4 :=
      nodupSubsetFourLength hnd (by
        intro x hx
        obtain ⟨r, hr, rfl⟩ := List.mem_map.1 (mem_sortedKeys.1 hx)
        exact hcats r hr)
    have hlenq : ((sortedKeys (f.rows.map Row.behavior_category)).length : Rat)
        ≤ 4 := by exact_mod_cast hlen
    linarith

/-- The failing table for the rounding-tie counterexample: category
revenues 2485, 2485, 2485, 2545 (total 10000), whose shares 24.85, 24.85,
24.85, 25.45 all round down under ties-to-even. -/
def c9Frame : Frame :=
  { rows := [mkRow "P1" 2485 "2024-01" "acute",
             mkRow "P2" 2485 "2024-01" "chronic",
             mkRow "P3" 2485 "2024-01" "convenience",
             mkRow "P4" 2545 "2024-01" "recurring"],
    hasInvoice := false }

/-- C9 counterexample: on `c9Frame` the revenue partition is exact, but the
rounded percentage shares sum to 99.8, deviating from 100 by 0.2, which
violates the claimed 0.1 tolerance. -/
theorem c9_rounding_counterexample :
    c9Frame.rows ≠ [] ∧
    0 < (c9Frame.rows.map Row.total).sum ∧
    ((get_category_performance c9Frame).map CategoryRow.revenue).sum =
      (c9Frame.rows.map Row.total).sum ∧
    ((get_category_performance c9Frame).map CategoryRow.percentage).sum
      = 499/5 ∧
    ¬ |((get_category_performance c9Frame).map CategoryRow.percentage).sum
        - 100| ≤ 1/10 := by
  refine ⟨by decide, by decide, by decide, by decide, by decide⟩

/-- Witness for the amended C9 at the concrete four-category table (the
deviation 0.2 attains the 1/5 bound). -/
theorem c9_category_partition_amended_witness :
    ((get_category_performance c9Frame).map CategoryRow.revenue).sum =
      (c9Frame.rows.map Row.total).sum ∧
    |((get_category_performance c9Frame).map CategoryRow.percentage).sum
      - 100| ≤ 1/5 :=
  c9_category_partition_amended c9Frame (by decide) (by decide) (by decide)

theorem fMA_length {ts : List MEntry} {p w : Nat} {out : List FPoint × Rat}
    (h : forecast_moving_average ts p w = some out) : out.1.length = p := by
  by_cases hlen : ts.length < max 3 w
  · rw [forecast_moving_average, if_pos hlen] at h
    exact absurd h (by simp)
  · rw [forecast_moving_average, if_neg hlen] at h
    obtain rfl := (Option.some_inj.1 h).symm
    simp

theorem fES_length {ts : List MEntry} {p : Nat} {a : Rat}
    {out : List FPoint × Rat}
    (h : forecast_exponential_smoothing ts p a = some out) :
    out.1.length = p := by
  by_cases hlen : ts.length < 3
  · rw [forecast_exponential_smoothing, if_pos hlen] at h
    exact absurd h (by simp)
  · rw [forecast_exponential_smoothing, if_neg hlen] at h
    obtain rfl := (Option.some_inj.1 h).symm
    simp

theorem fSeasonal_length {ts : List MEntry} {p : Nat}
    {out : List FPoint × Rat × List (Nat × Rat)}
    (h : forecast_seasonal ts p = some out) : out.1.length = p := by
  by_cases hlen : ts.length < 6
  · rw [forecast_seasonal, if_pos hlen] at h
    exact absurd h (by simp)
  · rw [forecast_seasonal, if_neg hlen] at h
    obtain rfl := (Option.some_inj.1 h).symm
    simp

theorem fES_isSome (ts : List MEntry) (p : Nat) (a : Rat)
    (h : 3 ≤ ts.length) :
    ∃ o, forecast_exponential_smoothing ts p a = some o := by
  rw [forecast_exponential_smoothing, if_neg (by omega)]
  exact ⟨_, rfl⟩

theorem fMA_isSome (ts : List MEntry) (p : Nat) (h : 3 ≤ ts.length) :
    ∃ o, forecast_moving_average ts p 3 = some o := by
  rw [forecast_moving_average,
    if_neg (by rw [Nat.max_self]; omega)]
  exact ⟨_, rfl⟩

theorem accuracyForecasts_isSome (train : List MEntry) (holdout : Nat)
    (method : String) (h : 3 ≤ train.length) :
    ∃ fps, accuracyForecasts train holdout method = some fps := by
  rw [accuracyForecasts]
  split_ifs with h1 h2
  · obtain ⟨o, ho⟩ := fMA_isSome train holdout h
    exact ⟨o.1, by rw [ho]; rfl⟩
  · cases hse : forecast_seasonal train holdout with
    | some o => exact ⟨o.1, rfl⟩
    | none =>
      obtain ⟨o, ho⟩ := fES_isSome train holdout (3/10) h
      exact ⟨o.1, by rw [ho]; rfl⟩
  · obtain ⟨o, ho⟩ := fES_isSome train holdout (3/10) h
    exact ⟨o.1, by rw [ho]; rfl⟩

theorem accuracyForecasts_length {train : List MEntry} {holdout : Nat}
    {method : String} {fps : List FPoint}
    (h : accuracyForecasts train holdout method = some fps) :
    fps.length = holdout := by
  rw [accuracyForecasts] at h
  split_ifs at h with h1 h2
  · cases hma : forecast_moving_average train holdout 3 with
    | none => rw [hma] at h; exact absurd h (by simp)
    | some o =>
      rw [hma] at h
      obtain rfl := (Option.some_inj.1 h).symm
      exact fMA_length hma
  · cases hse : forecast_seasonal train holdout with
    | some o =>
      rw [hse] at h
      obtain rfl := (Option.some_inj.1 h).symm
      exact fSeasonal_length hse
    | none =>
      rw [hse] at h
      cases hes : forecast_exponential_smoothing train holdout (3/10) with
      | none => rw [hes] at h; exact absurd h (by simp)
      | some o =>
        rw [hes] at h
        obtain rfl := (Option.some_inj.1 h).symm
        exact fES_length hes
  · cases hes : forecast_exponential_smoothing train holdout (3/10) with
    | none => rw [hes] at h; exact absurd h (by simp)
    | some o =>
      rw [hes] at h
      obtain rfl := (Option.some_inj.1 h).symm
      exact fES_length hes

/-- C7 (amended): the accuracy evaluator fails with the insufficient-data
signal exactly below `3 + holdout` months and otherwise returns a result;
the chosen method forecasts exactly `holdout` points from the training
slice; the result holds one aligned pair per held-out row (test periods
with no matching forecast point are treated as predicted 0 — the source
aligns actuals to forecasts, not forecasts to actuals); MAE, MSE (with
RMSE its square root) and MAPE (denominator 1 substituted for zero
actuals) are the stated means over those pairs; and perfect predictions
give MAE = RMSE = MAPE = 0. -/
theorem c7_accuracy_amended :
    (∀ (ts : List MEntry) (holdout : Nat) (method : String),
      ts.length < 3 + holdout →
      forecast_accuracy_test ts holdout method =
        .error "Insufficient data for accuracy test") ∧
    (∀ (train : List MEntry) (holdout : Nat) (method : String)
        (fps : List FPoint),
      accuracyForecasts train holdout method = some fps →
      fps.length = holdout) ∧
    (∀ (ts : List MEntry) (holdout : Nat) (method : String),
      3 + holdout ≤ ts.length →
      ∃ r, forecast_accuracy_test ts holdout method = .ok r) ∧
    (∀ (ts : List MEntry) (holdout : Nat) (method : String) (r : AccResult),
      forecast_accuracy_test ts holdout method = .ok r →
      (r.details.map AccDetail.period =
        (ts.drop (ts.length - holdout)).map MEntry.ds) ∧
      r.details.length = holdout ∧
      r.mae = ((r.details.map (fun d => |d.actual - d.predicted|)).sum)
        / (r.details.length : Rat) ∧
      r.mse = ((r.details.map (fun d => (d.actual - d.predicted) ^ 2)).sum)
        / (r.details.length : Rat) ∧
      r.mape = ((r.details.map (fun d => |(d.actual - d.predicted)
        / (if d.actual = 0 then 1 else d.actual)|)).sum)
        / (r.details.length : Rat) * 100 ∧
      ((∀ d ∈ r.details, d.predicted = d.actual) →
        r.mae = 0 ∧ Real.sqrt ((r.mse : Real)) = 0 ∧ r.mape = 0)) := by
  refine ⟨?_, ?_, ?_, ?_⟩
  · intro ts holdout method h
    rw [forecast_accuracy_test, if_pos h]
  · intro train holdout method fps h
    exact accuracyForecasts_length h
  · intro ts holdout method h
    rw [forecast_accuracy_test, if_neg (by omega)]
    obtain ⟨fps, hfps⟩ := accuracyForecasts_isSome
      (ts.take (ts.length - holdout)) holdout method
      (by rw [List.length_take]; omega)
    rw [hfps]
    exact ⟨_, rfl⟩
  · intro ts holdout method r h
    by_cases hg : ts.length < 3 + holdout
    · rw [forecast_accuracy_test, if_pos hg] at h
      exact absurd h (by simp)
    · rw [forecast_accuracy_test, if_neg hg] at h
      cases hfc : accuracyForecasts (ts.take (ts.length - holdout)) holdout
          method with
      | none => rw [hfc] at h; exact absurd h (by simp)
      | some fps =>
        rw [hfc] at h
        obtain rfl := (Except.ok.inj h).symm
        have hlen : (alignedDetails (ts.drop (ts.length - holdout)) fps).length
            = holdout := by
          rw [alignedDetails, List.length_map, List.length_drop]
          omega
        simp only [accResultOf]
        refine ⟨?_, hlen, trivial, trivial, trivial, ?_⟩
        · rw [alignedDetails, List.map_map]
          rfl
        · intro hp
          have hmae : ((alignedDetails (ts.drop (ts.length - holdout)) fps).map
              (fun d => |d.actual - d.predicted|)).sum = 0 := by
            refine List.sum_eq_zero (fun x hx => ?_)
            obtain ⟨d, hd, rfl⟩ := List.mem_map.1 hx
            rw [hp d hd, sub_self, abs_zero]
          have hmse : ((alignedDetails (ts.drop (ts.length - holdout)) fps).map
              (fun d => (d.actual - d.predicted) ^ 2)).sum = 0 := by
            refine List.sum_eq_zero (fun x hx => ?_)
            obtain ⟨d, hd, rfl⟩ := List.mem_map.1 hx
            rw [hp d hd, sub_self]
            ring
          have hmape : ((alignedDetails (ts.drop (ts.length - holdout)) fps).map
              (fun d => |(d.actual - d.predicted)
                / (if d.actual = 0 then 1 else d.actual)|)).sum = 0 := by
            refine List.sum_eq_zero (fun x hx => ?_)
            obtain ⟨d, hd, rfl⟩ := List.mem_map.1 hx
            rw [hp d hd, sub_self, zero_div, abs_zero]
          refine ⟨?_, ?_, ?_⟩
          · show (_ / _ : Rat) = 0
            rw [hmae, zero_div]
          · have : (alignedDetails (ts.drop (ts.length - holdout)) fps).length
                = holdout := hlen
            show Real.sqrt (((_ / _ : Rat) : Real)) = 0
            rw [hmse, zero_div, Rat.cast_zero, Real.sqrt_zero]
          · show (_ / _ * 100 : Rat) = 0
            rw [hmape, zero_div, zero_mul]

/-- Equality of `Except` results is decidable when both components are. -/
instance {e a : Type} [DecidableEq e] [DecidableEq a] :
    DecidableEq (Except e a) := fun x y =>
  match x, y with
  | .ok v, .ok w =>
    if h : v = w then isTrue (by rw [h])
    else isFalse (by simpa [Except.ok.injEq] using h)
  | .error v, .error w =>
    if h : v = w then isTrue (by rw [h])
    else isFalse (by simpa [Except.error.injEq] using h)
  | .ok _, .error _ => isFalse (by simp)
  | .error _, .ok _ => isFalse (by simp)

/-- The gapped series for the C7 counterexample: months 0-3 of value 10,
then a gap, then month 5 of value 3. -/
def c7GapSeries : List MEntry :=
  [⟨0, 10⟩, ⟨1, 10⟩, ⟨2, 10⟩, ⟨3, 10⟩, ⟨5, 3⟩]

/-- What the source computes on the gapped series: the held-out month 5
has no matching forecast (the forecast is for month 4), so its predicted
value defaults to 0 and MAE is 3. -/
def c7GapResult : AccResult :=
  { mae := 3, mse := 9, mape := 100,
    details := [⟨5, 3, 0⟩] }

/-- C7 counterexample: on the gapped series the evaluator returns MAE 3
(unmatched actual paired with predicted 0), while the claim's alignment
(unmatched forecast paired with actual 0) gives MAE 10, so the claim's
description of the alignment is false of the code. -/
theorem c7_alignment_counterexample :
    forecast_accuracy_test c7GapSeries 1 "auto" = .ok c7GapResult ∧
    c7GapResult.mae = 3 ∧
    claimAlignedMAE c7GapSeries 1 "auto" = 10 ∧
    ¬ c7GapResult.mae = claimAlignedMAE c7GapSeries 1 "auto" := by
  refine ⟨by decide, by decide, by decide, by decide⟩

/-- Four flat months: the witness series for the amended C7 (a perfect
forecast, so every error metric is 0). -/
def c7FlatSeries : List MEntry :=
  [⟨0, 10⟩, ⟨1, 10⟩, ⟨2, 10⟩, ⟨3, 10⟩]

/-- The evaluator's result on the flat series. -/
def c7FlatResult : AccResult :=
  { mae := 0, mse := 0, mape := 0,
    details := [⟨3, 10, 10⟩] }

/-- Witness for the amended C7: the insufficiency case at three months and
the perfect-forecast case at four flat months, via the theorem. -/
theorem c7_accuracy_amended_witness :
    forecast_accuracy_test (c7FlatSeries.take 3) 1 "auto" =
      .error "Insufficient data for accuracy test" ∧
    forecast_accuracy_test c7FlatSeries 1 "auto" = .ok c7FlatResult ∧
    c7FlatResult.mae = 0 ∧
    Real.sqrt ((c7FlatResult.mse : Real)) = 0 ∧
    c7FlatResult.mape = 0 := by
  have h1 : forecast_accuracy_test c7FlatSeries 1 "auto" = .ok c7FlatResult := by
    decide
  obtain ⟨-, -, -, -, -, hz⟩ :=
    c7_accuracy_amended.2.2.2 c7FlatSeries 1 "auto" c7FlatResult h1
  have hzz := hz (by decide)
  exact ⟨c7_accuracy_amended.1 (c7FlatSeries.take 3) 1 "auto" (by decide),
    h1, hzz.1, hzz.2.1, hzz.2.2⟩

/-- The character of a decimal digit. -/
def digitChar (k : Nat) : Char := Char.ofNat (48 + k)

/-- The canonical seven-character rendering of an absolute month index:
four year digits, a dash, two month digits. -/
def renderPeriod (n : Nat) : List Char :=
  [digitChar (n / 12 / 1000 % 10), digitChar (n / 12 / 100 % 10),
   digitChar (n / 12 / 10 % 10), digitChar (n / 12 % 10), '-',
   digitChar ((n % 12 + 1) / 10), digitChar ((n % 12 + 1) % 10)]

theorem charToNatInj {a b : Char} (h : a.toNat = b.toNat) : a = b := by
  have := congrArg Char.ofNat h
  rwa [Char.ofNat_toNat, Char.ofNat_toNat] at this

theorem digitVal_eq {c : Char} {a : Nat} (h : digitVal c = some a) :
    c.toNat = 48 + a ∧ a ≤ 9 := by
  rw [digitVal] at h
  split_ifs at h with hc
  obtain ⟨h1, h2⟩ := hc
  injection h with h3
  omega

theorem digitChar_of_digitVal {c : Char} {a : Nat} (h : digitVal c = some a) :
    c = digitChar a := by
  obtain ⟨h1, -⟩ := digitVal_eq h
  rw [digitChar, ← h1, Char.ofNat_toNat]

theorem parsePeriodAux_render {l : List Char} {n : Nat}
    (h : parsePeriodAux l = some n) : l = renderPeriod n := by
  rcases l with _ | ⟨y1, _ | ⟨y2, _ | ⟨y3, _ | ⟨y4, _ | ⟨d, _ | ⟨m1, _ |
    ⟨m2, _ | ⟨x, rest⟩⟩⟩⟩⟩⟩⟩⟩ <;>
    simp only [parsePeriodAux] at h <;>
    try exact absurd h (by simp)
  rw [parseCore] at h
  split_ifs at h with hd
  cases h1 : digitVal y1 with
  | none => rw [h1] at h; exact absurd h (by simp)
  | some a =>
  cases h2 : digitVal y2 with
  | none => rw [h1, h2] at h; exact absurd h (by simp)
  | some b =>
  cases h3 : digitVal y3 with
  | none => rw [h1, h2, h3] at h; exact absurd h (by simp)
  | some c =>
  cases h4 : digitVal y4 with
  | none => rw [h1, h2, h3, h4] at h; exact absurd h (by simp)
  | some e =>
  cases h5 : digitVal m1 with
  | none => rw [h1, h2, h3, h4, h5] at h; exact absurd h (by simp)
  | some g =>
  cases h6 : digitVal m2 with
  | none => rw [h1, h2, h3, h4, h5, h6] at h; exact absurd h (by simp)
  | some k =>
  rw [h1, h2, h3, h4, h5, h6] at h
  simp only [Option.some_bind] at h
  split_ifs at h with hm
  injection h with hn
  obtain ⟨ha1, ha2⟩ := digitVal_eq h1
  obtain ⟨hb1, hb2⟩ := digitVal_eq h2
  obtain ⟨hc1, hc2⟩ := digitVal_eq h3
  obtain ⟨he1, he2⟩ := digitVal_eq h4
  obtain ⟨hg1, hg2⟩ := digitVal_eq h5
  obtain ⟨hk1, hk2⟩ := digitVal_eq h6
  obtain ⟨hm1le, hm2le⟩ := hm
  rw [digitChar_of_digitVal h1, digitChar_of_digitVal h2,
    digitChar_of_digitVal h3, digitChar_of_digitVal h4,
    digitChar_of_digitVal h5, digitChar_of_digitVal h6, hd, renderPeriod]
  have e1 : a = n / 12 / 1000 % 10 := by omega
  have e2 : b = n / 12 / 100 % 10 := by omega
  have e3 : c = n / 12 / 10 % 10 := by omega
  have e4 : e = n / 12 % 10 := by omega
  have e5 : g = (n % 12 + 1) / 10 := by omega
  have e6 : k = (n % 12 + 1) % 10 := by omega
  rw [e1, e2, e3, e4, e5, e6]

/-- Two period keys that parse to the same month index are equal: on
parseable keys, parsing is injective. -/
theorem parsePeriod_inj {s t : String} {n : Nat}
    (hs : parsePeriod s = some n) (ht : parsePeriod t = some n) : s = t := by
  have h1 := parsePeriodAux_render hs
  have h2 := parsePeriodAux_render ht
  have h3 : s.toList = t.toList := h1.trans h2.symm
  cases s; cases t
  simp only [String.toList] at h3
  rw [h3]

theorem mkTSRow_period (df : List Row) (ft m : String) (d : Nat) :
    (mkTSRow df ft m d).period = m := rfl

theorem mkTSRow_ds (df : List Row) (ft m : String) (d : Nat) :
    (mkTSRow df ft m d).ds = d := rfl

theorem periods_filterMap (df : List Row) (ft : String) (ms : List String) :
    (ms.filterMap (fun m => (parsePeriod m).map (mkTSRow df ft m))).map
      TSRow.period = ms.filter (fun m => (parsePeriod m).isSome) := by
  induction ms with
  | nil => rfl
  | cons m t ih =>
    cases hp : parsePeriod m with
    | none =>
      rw [List.filterMap_cons, hp, List.filter_cons]
      simp only [hp, Option.map_none', Option.isSome_none]
      simpa using ih
    | some d =>
      rw [List.filterMap_cons, hp, List.filter_cons]
      simp only [hp, Option.map_some', Option.isSome_some, List.map_cons,
        mkTSRow_period]
      simpa using ih

/-- C8: the prepared monthly series contains exactly one row per distinct
`month_year` whose period parses to a date (unparseable periods dropped),
each row's `ds` is the parse of its period, and the rows are strictly
ascending by the first-of-month date. -/
theorem c8_prepare_sorted :
    ∀ (f : Frame) (product : Option String) (t : String) (out : List TSRow),
      prepare_time_series f product t = .ok out →
      (∀ p : String, (out.map TSRow.period).count p =
          (if p ∈ (preparedRows f product).map Row.month_year ∧
              (parsePeriod p).isSome then 1 else 0)) ∧
      (∀ r ∈ out, parsePeriod r.period = some r.ds) ∧
      out.Pairwise (fun a b => a.ds < b.ds) := by
  intro f product t out h
  rw [prepare_time_series] at h
  by_cases hemp : (preparedRows f product).isEmpty
  · rw [if_pos hemp] at h
    obtain rfl := (Except.ok.inj h).symm
    refine ⟨?_, by simp, List.Pairwise.nil⟩
    intro p
    rw [List.map_nil, List.count_nil, if_neg]
    rintro ⟨hp, -⟩
    rw [List.isEmpty_iff] at hemp
    rw [hemp] at hp
    simp at hp
  · rw [if_neg hemp] at h
    have hmy : (f.columns.contains "month_year") = true := by
      cases hb : f.hasInvoice <;> simp [Frame.columns, baseColumns, hb]
    have hpr : (f.columns.contains "product") = true := by
      cases hb : f.hasInvoice <;> simp [Frame.columns, baseColumns, hb]
    rw [hmy, hpr] at h
    simp only [Bool.not_true, Bool.false_eq_true, if_false] at h
    obtain rfl := (Except.ok.inj h).symm
    have hperm := List.perm_insertionSort (fun a b : TSRow => a.ds ≤ b.ds)
      ((sortedKeys ((preparedRows f product).map Row.month_year)).filterMap
        (fun m => (parsePeriod m).map
          (mkTSRow (preparedRows f product) (normalizeForecastType t) m)))
    refine ⟨?_, ?_, ?_⟩
    · intro p
      rw [(hperm.map TSRow.period).count_eq, periods_filterMap]
      by_cases h1 : p ∈ (preparedRows f product).map Row.month_year
      · by_cases h2 : (parsePeriod p).isSome
        · rw [if_pos ⟨h1, h2⟩]
          exact List.count_eq_one_of_mem
            ((sortedKeys_nodup _).filter _)
            (List.mem_filter.2 ⟨mem_sortedKeys.2 h1, by simpa using h2⟩)
        · rw [if_neg (fun hc => h2 hc.2), List.count_eq_zero]
          intro hc
          exact h2 (by simpa using (List.mem_filter.1 hc).2)
      · rw [if_neg (fun hc => h1 hc.1), List.count_eq_zero]
        intro hc
        exact h1 (mem_sortedKeys.1 (List.mem_filter.1 hc).1)
    · intro r hr
      have hr' := hperm.mem_iff.1 hr
      obtain ⟨m, hm, hmr⟩ := List.mem_filterMap.1 hr'
      cases hp : parsePeriod m with
      | none => rw [hp] at hmr; exact absurd hmr (by simp)
      | some d =>
        rw [hp] at hmr
        obtain rfl := (Option.some_inj.1 hmr).symm
        rw [mkTSRow_period, mkTSRow_ds, hp]
    · have hsorted : (List.insertionSort (fun a b : TSRow => a.ds ≤ b.ds)
          ((sortedKeys ((preparedRows f product).map Row.month_year)).filterMap
            (fun m => (parsePeriod m).map
              (mkTSRow (preparedRows f product)
                (normalizeForecastType t) m)))).Pairwise
          (fun a b : TSRow => a.ds ≤ b.ds) := by
        haveI : IsTotal TSRow (fun a b : TSRow => a.ds ≤ b.ds) :=
          ⟨fun a b => le_total a.ds b.ds⟩
        haveI : IsTrans TSRow (fun a b : TSRow => a.ds ≤ b.ds) :=
          ⟨fun _ _ _ h1 h2 => le_trans h1 h2⟩
        exact List.sorted_insertionSort _ _
      have hne0 : ((sortedKeys ((preparedRows f product).map
          Row.month_year)).filterMap
            (fun m => (parsePeriod m).map
              (mkTSRow (preparedRows f product)
                (normalizeForecastType t) m))).Pairwise
          (fun a b : TSRow => a.ds ≠ b.ds) := by
        refine List.pairwise_filterMap.2 ?_
        refine (sortedKeys_nodup _).imp ?_
        intro m m' hmm x hx y hy
        cases hp : parsePeriod m with
        | none => rw [hp] at hx; exact absurd hx (by simp)
        | some d =>
          cases hp' : parsePeriod m' with
          | none => rw [hp'] at hy; exact absurd hy (by simp)
          | some d' =>
            rw [hp] at hx
            rw [hp'] at hy
            obtain rfl := (Option.some_inj.1 (Option.mem_def.1 hx)).symm
            obtain rfl := (Option.some_inj.1 (Option.mem_def.1 hy)).symm
            rw [mkTSRow_ds, mkTSRow_ds]
            intro hdd
            subst hdd
            exact hmm (parsePeriod_inj hp hp')
      have hne : (List.insertionSort (fun a b : TSRow => a.ds ≤ b.ds)
          ((sortedKeys ((preparedRows f product).map Row.month_year)).filterMap
            (fun m => (parsePeriod m).map
              (mkTSRow (preparedRows f product)
                (normalizeForecastType t) m)))).Pairwise
          (fun a b : TSRow => a.ds ≠ b.ds) :=
        (hperm.pairwise_iff (fun hab => Ne.symm hab)).2 hne0
      exact (hsorted.and hne).imp (fun hab => lt_of_le_of_ne hab.1 hab.2)

/-- Witness table for C8: months out of order plus an unparseable period
key. -/
def c8Frame : Frame :=
  { rows := [mkRow "A" 5 "2024-02" "acute", mkRow "A" 7 "2024-01" "acute",
             mkRow "B" 3 "bad-period" "acute"],
    hasInvoice := false }

/-- The prepared series of `c8Frame`: the unparseable period is dropped and
the two months come out ascending. -/
def c8Out : List TSRow :=
  [⟨"2024-01", 24288, 7, 7, 1, 1⟩, ⟨"2024-02", 24289, 5, 5, 1, 1⟩]

/-- Witness for C8 at the concrete table, via the theorem. -/
theorem c8_prepare_sorted_witness :
    prepare_time_series c8Frame none "revenue" = .ok c8Out ∧
    (c8Out.map TSRow.period).count "2024-01" =
      (if "2024-01" ∈ (preparedRows c8Frame none).map Row.month_year ∧
          (parsePeriod "2024-01").isSome then 1 else 0) ∧
    (c8Out.map TSRow.period).count "bad-period" =
      (if "bad-period" ∈ (preparedRows c8Frame none).map Row.month_year ∧
          (parsePeriod "bad-period").isSome then 1 else 0) ∧
    c8Out.Pairwise (fun a b => a.ds < b.ds) := by
  have h : prepare_time_series c8Frame none "revenue" = .ok c8Out := by decide
  obtain ⟨hc, -, hp⟩ := c8_prepare_sorted c8Frame none "revenue" c8Out h
  exact ⟨h, hc "2024-01", hc "bad-period", hp⟩

/-- Witness for C10 at a concrete table and bounds. -/
theorem c10_one_sided_filter_ignored_witness :
    analyticsView scenarioB (some 5) none = scenarioB ∧
    analyticsView scenarioB none (some 5) = scenarioB ∧
    analyticsView scenarioB none none = scenarioB :=
  ⟨(c10_one_sided_filter_ignored scenarioB 5 5 false).1,
   (c10_one_sided_filter_ignored scenarioB 5 5 false).2.1,
   (c10_one_sided_filter_ignored scenarioB 5 5 false).2.2.1⟩

end PharmaInsight
